import Mathlib

set_option linter.unusedVariables false

/-!
# Verification of the dutch-market-data-engine invoice core

Shallow embedding of the four core components of the repository —
the financial validator (`backend/financial_body.py`), the field-extraction
numeric normalizer (`backend/processor.py`), the compliance engine
(`PROPOSAL_DELIVERY/backend/services.py`) and the workflow engine
(`Demo/backend/agent_brain.py`) — together with theorems checking the
specification's claims about them.

Modelling conventions:
* Python `Decimal` values and `float` monetary values are embedded as exact
  rationals (`Rat`).  The validator converts every float through its decimal
  string (`Decimal(str(x))`), so its arithmetic is decimal-exact; the lossy
  `float(...)` re-conversion used when filling the debug dictionary is
  modelled by `floatOfRat`, the correctly rounded IEEE-754 binary64
  conversion (round to nearest, ties to even, subnormals included); inputs
  so large that Python would overflow the conversion to infinity lie outside
  the rational embedding's faithful domain.
* Wall-clock readings (`datetime.now()`, `time.time()`) are external inputs
  and are passed as explicit parameters.
* Python `dict` registries are embedded as association lists with
  insert-or-replace update.
* The random id `str(uuid.uuid4())[:8]` is an external input and is passed
  as an explicit parameter.
* Python string helpers (`lower()`, `strip()`, `replace`, `rfind`,
  `split(',')[-1]`) are embedded as functions on the character list of the
  string; the repository only feeds them ASCII data.
-/

/-! ## Python string helpers -/

/-- Python `str.lower()` (ASCII data only in this repository). -/

def pyLower (s : String) : String :=
  String.mk (s.data.map Char.toLower)

/-- Python `str.strip()`: drop whitespace from both ends. -/

def pyStrip (s : String) : String :=
  String.mk (((s.data.dropWhile Char.isWhitespace).reverse.dropWhile Char.isWhitespace).reverse)

/-- Python `str.replace(" ", "")`: drop every space character. -/

def removeSpaces (s : String) : String :=
  String.mk (s.data.filter (fun c => c ≠ ' '))

/-- Python string `<=` on two strings, lexicographic by code point. -/

def strLe : List Char → List Char → Bool
  | [], _ => true
  | _ :: _, [] => false
  | c :: cs, d :: ds => if c = d then strLe cs ds else decide (c < d)

/-! ## Decimal arithmetic helpers (`decimal.Decimal`, `ROUND_HALF_UP`) -/

/-- Embedding of `Decimal.quantize(Decimal("0.01"), rounding=ROUND_HALF_UP)`: round to two
fractional digits, ties away from zero. -/

def roundHalfUp2 (q : Rat) : Rat :=
  if 0 ≤ q then (⌊q * 100 + 1 / 2⌋ : Rat) / 100
  else -((⌊(-q) * 100 + 1 / 2⌋ : Rat) / 100)

/-! ## `backend/financial_body.py` — `FinancialCalculator` -/

/-- Embedding of `FinancialCalculator.calculate_tax`:
`(amount * rate).quantize("0.01", ROUND_HALF_UP)`. -/

def calculate_tax (amount rate : Rat) : Rat :=
  roundHalfUp2 (amount * rate)

/-- Round a rational to the nearest integer, ties to even — the rounding
mode of IEEE-754 binary64 conversions. -/

def rne (x : Rat) : Int :=
  let n := ⌊x⌋
  if x - n > 1 / 2 then n + 1
  else if x - n < 1 / 2 then n
  else if n % 2 = 0 then n else n + 1

/-- Value of Python `float(...)` applied to an exact decimal: the correctly
rounded IEEE-754 binary64 conversion.  The unit in the last place is
`2 ^ (⌊log2 |q|⌋ - 52)`, clamped at the subnormal granularity `2 ^ (-1074)`.
Magnitudes at or beyond `2 ^ 1024` overflow to infinity in Python and lie
outside this rational embedding. -/

def floatOfRat (q : Rat) : Rat :=
  if q = 0 then 0
  else
    let t : Int := max (Int.log 2 |q| - 52) (-1074)
    (rne (q / (2 : Rat) ^ t) : Rat) * (2 : Rat) ^ t

/-- The `(IsValid, Reason, DebugDetails)` triple returned by
`FinancialCalculator.validate_invoice_math`; the debug dictionary is an
association list of numeric entries. -/

structure ValidationResult where
  valid : Bool
  reason : String
  debug : List (String × Rat)
  deriving Repr, DecidableEq

/-- Embedding of `FinancialCalculator.validate_invoice_math`.  Inputs are already numeric,
so `_to_decimal` never raises and is the identity of the embedding. -/

def validate_invoice_math (subtotal tax_amount total : Rat) (tax_rate : Rat) : ValidationResult :=
  let calculated_total := subtotal + tax_amount
  if calculated_total ≠ total then
    let diff := total - calculated_total
    { valid := false
      reason := "Arithmetic Error: Subtotal + Tax != Total. Diff: " ++ toString diff
      debug := [("expected_total", floatOfRat calculated_total),
        ("claimed_total", floatOfRat total), ("diff", floatOfRat diff)] }
  else
    let expected_tax := calculate_tax subtotal tax_rate
    let tax_diff := |expected_tax - tax_amount|
    if tax_diff > 5 / 100 then
      { valid := false
        reason := "Tax Logic Error: Tax amount doesn't match rate " ++ toString tax_rate
          ++ ". Diff: " ++ toString tax_diff
        debug := [("expected_tax", floatOfRat expected_tax),
        ("claimed_tax", floatOfRat tax_amount), ("diff", floatOfRat tax_diff)] }
    else
      { valid := true, reason := "Math Validated", debug := [] }

/-! ## `backend/models.py` — domain model -/

/-- The `CheckStatus` enumeration. -/

inductive CheckStatus
  | PASS
  | FAIL
  | WARNING
  deriving Repr, DecidableEq

/-- The `CheckResult` record; the epoch timestamp is an external wall-clock input. -/

structure CheckResult where
  check_name : String
  status : CheckStatus
  message : String
  timestamp : Rat
  deriving Repr, DecidableEq

/-- The `Invoice` record.  The issue date is kept in its ISO `YYYY-MM-DD` rendering,
which is exactly what `services.py` compares; line items and the source file
path are never consulted by the verified components and are omitted. -/

structure Invoice where
  invoice_id : String
  vendor_name : String
  iban : String
  date : Option String
  amount : Rat
  currency : String
  department : String
  deriving Repr, DecidableEq

/-- A row of `vendors.csv` as used by `ComplianceService`. -/

structure VendorRecord where
  vendor_name : String
  iban : String
  risk_level : String
  deriving Repr, DecidableEq

/-- A row of `budgets.csv` as used by `ComplianceService`. -/

structure BudgetRecord where
  department : String
  total_budget : Rat
  remaining_budget : Rat
  deriving Repr, DecidableEq

/-- A row of `contracts.csv` as used by `ComplianceService`; dates are ISO
strings, compared lexicographically exactly as the code does. -/

structure ContractRecord where
  vendor_name : String
  start_date : String
  end_date : String
  is_active : Bool
  deriving Repr, DecidableEq

/-- The `ProcessingResult` record. -/

structure ProcessingResult where
  invoice : Invoice
  checks : List CheckResult
  final_status : String
  risk_score : Nat
  deriving Repr, DecidableEq

/-! ## `PROPOSAL_DELIVERY/backend/services.py` — `ComplianceService`

The three reference datasets loaded by `_initialize_resources` (or the empty
fallback of `_set_empty_state`). -/

structure ComplianceService where
  vendors : List VendorRecord
  budgets : List BudgetRecord
  contracts : List ContractRecord
  deriving Repr, DecidableEq

/-- Embedding of `ComplianceService._verify_financial_routing`.  The authorized set is the
vendor directory's IBANs with spaces removed; the invoice IBAN is compared
as-is. -/

def verify_financial_routing (svc : ComplianceService) (now : Rat) (invoice : Invoice) :
    CheckResult :=
  let authorized_ibans := svc.vendors.map (fun v => removeSpaces v.iban)
  if invoice.iban = "UNKNOWN" then
    { check_name := "Financial Routing", status := .FAIL,
      message := "Missing IBAN on document.", timestamp := now }
  else if invoice.iban ∉ authorized_ibans then
    { check_name := "Financial Routing", status := .FAIL,
      message := "Unauthorized IBAN detected: " ++ invoice.iban, timestamp := now }
  else
    { check_name := "Financial Routing", status := .PASS,
      message := "IBAN verified.", timestamp := now }

/-- Embedding of `ComplianceService._assess_vendor_risk`: first row of the vendor
directory whose stripped, lower-cased name matches. -/

def assess_vendor_risk (svc : ComplianceService) (now : Rat) (invoice : Invoice) : CheckResult :=
  let inv_vendor := pyLower (pyStrip invoice.vendor_name)
  let vendor_data := svc.vendors.filter (fun v => pyLower (pyStrip v.vendor_name) == inv_vendor)
  match vendor_data with
  | [] =>
    { check_name := "Vendor Risk", status := .WARNING,
      message := "Vendor unknown (First-time supplier).", timestamp := now }
  | v :: _ =>
    if v.risk_level = "High" then
      { check_name := "Vendor Risk", status := .FAIL,
        message := "Vendor is flagged as HIGH RISK.", timestamp := now }
    else
      { check_name := "Vendor Risk", status := .PASS,
        message := "Vendor cleared.", timestamp := now }

/-- Embedding of `ComplianceService._validate_budgetary_alignment`.  Python's `:.2f`
float rendering in the pass message is abstracted by `toString`. -/

def validate_budgetary_alignment (svc : ComplianceService) (now : Rat) (invoice : Invoice) :
    CheckResult :=
  let inv_dept := pyLower (pyStrip invoice.department)
  let allocation := svc.budgets.filter (fun b => pyLower (pyStrip b.department) == inv_dept)
  if invoice.department = "Unknown" then
    { check_name := "Budget Check", status := .WARNING,
      message := "Unclassified Department.", timestamp := now }
  else
    match allocation with
    | [] =>
      { check_name := "Budget Check", status := .FAIL,
        message := "No budget allocated for '" ++ invoice.department ++ "'.", timestamp := now }
    | b :: _ =>
      let remaining := b.remaining_budget
      if invoice.amount > remaining then
        { check_name := "Budget Check", status := .FAIL,
          message := "Budget Exceeded. Req: €" ++ toString invoice.amount
            ++ " > Rem: €" ++ toString remaining, timestamp := now }
      else
        { check_name := "Budget Check", status := .PASS,
          message := "Approved. (Remaining: €" ++ toString (remaining - invoice.amount)
            ++ ")", timestamp := now }

/-- Embedding of `ComplianceService._verify_contractual_standing`: first matching contract
row that is active and whose inclusive ISO interval contains the invoice
date. -/

def verify_contractual_standing (svc : ComplianceService) (now : Rat) (invoice : Invoice) :
    CheckResult :=
  let inv_vendor := pyLower (pyStrip invoice.vendor_name)
  let agreements := svc.contracts.filter (fun c => pyLower (pyStrip c.vendor_name) == inv_vendor)
  match invoice.date with
  | none =>
    { check_name := "Contract Check", status := .FAIL,
      message := "Invoice missing date info.", timestamp := now }
  | some inv_date_iso =>
    match agreements.find? (fun a =>
        a.is_active && strLe a.start_date.data inv_date_iso.data
          && strLe inv_date_iso.data a.end_date.data) with
    | some _ =>
      { check_name := "Contract Check", status := .PASS,
        message := "Active Master Agreement found.", timestamp := now }
    | none =>
      { check_name := "Contract Check", status := .FAIL,
        message := "No active contract covers this date.", timestamp := now }

/-- Embedding of `ComplianceService.process_invoice`.  The second component counts the
calls to `_post_to_odoo_mock` (the external system-of-record sync). -/

def process_invoice (svc : ComplianceService) (now : Rat) (invoice : Invoice) :
    ProcessingResult × Nat :=
  let checks : List CheckResult :=
    [verify_financial_routing svc now invoice,
     assess_vendor_risk svc now invoice,
     validate_budgetary_alignment svc now invoice,
     verify_contractual_standing svc now invoice]
  let critical_failures := checks.filter (fun c => c.status == CheckStatus.FAIL)
  let warnings := checks.filter (fun c => c.status == CheckStatus.WARNING)
  if critical_failures ≠ [] then
    ({ invoice := invoice, checks := checks, final_status := "REJECTED", risk_score := 100 }, 0)
  else if warnings ≠ [] then
    ({ invoice := invoice, checks := checks, final_status := "DRAFT", risk_score := 50 }, 0)
  else
    ({ invoice := invoice, checks := checks, final_status := "APPROVED", risk_score := 0 }, 1)

/-- Reference data and invoice exercising the REJECTED aggregation path
(sentinel IBAN plus missing date force two FAILs). -/

def emptyService : ComplianceService :=
  { vendors := [], budgets := [], contracts := [] }

/-- An invoice whose IBAN is the `"UNKNOWN"` sentinel and whose date is
missing. -/

def sentinelInvoice : Invoice :=
  { invoice_id := "INV-0", vendor_name := "Nobody", iban := "UNKNOWN",
    date := none, amount := 100, currency := "EUR", department := "Unknown" }

/-- Vendor directory holding one spaced IBAN. -/

def spacedIbanService : ComplianceService :=
  { vendors := [{ vendor_name := "ACME BV", iban := "NL91 ABNA 0417 1643 00",
                  risk_level := "Low" }],
    budgets := [], contracts := [] }

/-- Invoice carrying the same IBAN, still spaced. -/

def spacedIbanInvoice : Invoice :=
  { invoice_id := "INV-7", vendor_name := "ACME BV", iban := "NL91 ABNA 0417 1643 00",
    date := some "2024-06-15", amount := 100, currency := "EUR", department := "IT" }

/-- Invoice carrying the same IBAN with the spaces already removed. -/

def cleanIbanInvoice : Invoice :=
  { invoice_id := "INV-8", vendor_name := "ACME BV", iban := "NL91ABNA0417164300",
    date := some "2024-06-15", amount := 100, currency := "EUR", department := "IT" }

/-! ## `Demo/backend/agent_brain.py` — workflow engine

The engine's registry (`active_workflows`) is a Python dict; it is embedded
as an association list with insert-or-replace update.  Timestamps rendered
by `datetime.now().strftime("%H:%M:%S")` are passed in as a `ts` parameter.
The outcome of the `validate_invoice_math` call inside the `try` block is
made explicit as an `Except` parameter of `execute_step_with` so that the
caught-exception path can be stated; the concrete `execute_step` instantiates
it with the validator's actual (never-raising) result. -/

/-- The `WorkflowState` lifecycle enumeration. -/

inductive WorkflowState
  | PENDING
  | PROCESSING
  | AWAITING_HUMAN
  | APPROVED
  | REJECTED
  deriving Repr, DecidableEq

/-- A value of `AgentMemory.vendor_patterns` / `retrieve_context`. -/

structure VendorContext where
  risk : String
  category : String
  avg_delay : Option Nat
  deriving Repr, DecidableEq

/-- Embedding of `AgentMemory.vendor_patterns`, the static knowledge-graph simulation. -/

def vendor_patterns : List (String × VendorContext) :=
  [("dark web corp", { risk := "HIGH", category := "Suspicious", avg_delay := some 5 }),
   ("aws", { risk := "LOW", category := "Infrastructure", avg_delay := none }),
   ("mckenzie consulting", { risk := "MEDIUM", category := "Professional Services",
                             avg_delay := none })]

/-- Python `dict.get` / `d[k]` lookup on the association-list embedding. -/

def dictGet? {α : Type} (k : String) : List (String × α) → Option α
  | [] => none
  | (k', v) :: rest => if k' = k then some v else dictGet? k rest

/-- Python `d[k] = v`: replace in place if present, append otherwise. -/

def dictSet {α : Type} (k : String) (v : α) : List (String × α) → List (String × α)
  | [] => [(k, v)]
  | (k', v') :: rest => if k' = k then (k, v) :: rest else (k', v') :: dictSet k v rest

/-- Embedding of `AgentMemory.retrieve_context`: lower-cased, stripped exact lookup with
the `{"risk": "UNKNOWN", "category": "General"}` default. -/

def retrieve_context (vendor_name : String) : VendorContext :=
  (dictGet? (pyStrip (pyLower vendor_name)) vendor_patterns).getD
    { risk := "UNKNOWN", category := "General", avg_delay := none }

/-- The `WorkflowContext` state container. -/

structure WorkflowContext where
  workflow_id : String
  status : WorkflowState
  invoice : Invoice
  logs : List String
  math_verification : Option ValidationResult
  memory_context : Option VendorContext
  human_action_needed : Option String
  deriving Repr, DecidableEq

/-- The `WorkflowEngine`'s mutable state: the process-wide registry. -/

structure WorkflowEngine where
  active_workflows : List (String × WorkflowContext)
  deriving Repr, DecidableEq

/-- Embedding of `WorkflowEngine._log`: the timestamped audit entry appended per event. -/

def logEntry (ts message : String) : String :=
  "[" ++ ts ++ "] " ++ message

/-- Embedding of `WorkflowEngine._pause_for_human`. -/

def pause_for_human (ts : String) (ctx : WorkflowContext) (reason : String) : WorkflowContext :=
  { ctx with
    status := .AWAITING_HUMAN
    human_action_needed := some reason
    logs := ctx.logs ++ [logEntry ts ("Workflow Paused: " ++ reason)] }

/-- The context transformation performed by `WorkflowEngine._execute_step` on
the registered context, with the validator call's outcome (`vOut`) explicit:
`Except.error` is the caught-exception path of the `try` block. -/

def step_context (vOut : Except String ValidationResult) (ts : String)
    (ctx0 : WorkflowContext) : WorkflowContext :=
  let ctx1 := { ctx0 with
                status := WorkflowState.PROCESSING
                logs := ctx0.logs ++ [logEntry ts "Agent execution started."] }
  let vendor_ctx := retrieve_context ctx1.invoice.vendor_name
  let ctx2 := { ctx1 with
                memory_context := some vendor_ctx
                logs := ctx1.logs ++ [logEntry ts ("Memory Lookup: Identified as "
                  ++ vendor_ctx.risk ++ " Risk.")] }
  if vendor_ctx.risk = "HIGH" then
    pause_for_human ts ctx2 "High Risk Vendor detected. CFO Approval Required."
  else
    match vOut with
    | .error _ =>
      pause_for_human ts ctx2 "Deterministic Math Engine Error. Manual Review needed."
    | .ok _ =>
      if ctx2.invoice.amount > 10000 then
        pause_for_human ts ctx2 "Large Transaction (> €10k). Variance Protocol initiated."
      else
        { ctx2 with
          status := WorkflowState.APPROVED
          logs := ctx2.logs
            ++ [logEntry ts "Auto-Approval Logic satisfied. Transaction Released."] }

/-- Embedding of `WorkflowEngine._execute_step` with the validator outcome explicit.  An
unknown id only logs an error and leaves the registry unchanged. -/

def execute_step_with (vOut : Except String ValidationResult) (ts : String) (w_id : String)
    (engine : WorkflowEngine) : WorkflowEngine :=
  match dictGet? w_id engine.active_workflows with
  | none => engine
  | some ctx0 =>
    { engine with
      active_workflows := dictSet w_id (step_context vOut ts ctx0) engine.active_workflows }

/-- The validator call made by `_execute_step`: a 21% rate is assumed, the
subtotal is implied from the single amount.  On exact rationals this never
raises, so the concrete outcome is always `Except.ok`. -/

def implied_validation (invoice : Invoice) : ValidationResult :=
  let tax_rate : Rat := 21 / 100
  let implied_subtotal := invoice.amount / (1 + tax_rate)
  let implied_tax := invoice.amount - implied_subtotal
  validate_invoice_math implied_subtotal implied_tax invoice.amount tax_rate

/-- Embedding of `WorkflowEngine._execute_step` proper. -/

def execute_step (ts w_id : String) (engine : WorkflowEngine) : WorkflowEngine :=
  match dictGet? w_id engine.active_workflows with
  | none => engine
  | some ctx =>
    execute_step_with (Except.ok (implied_validation ctx.invoice)) ts w_id engine

/-- Embedding of `WorkflowEngine.start_workflow`.  The generated 8-character uuid slice is
the `w_id` input.  In Python the context is registered first and the initial
audit entry is appended through the shared reference; the net registry state
is the same as registering the context with its initial entry. -/

def start_workflow (w_id ts : String) (invoice : Invoice) (engine : WorkflowEngine) :
    String × WorkflowEngine :=
  let context : WorkflowContext :=
    { workflow_id := w_id, status := WorkflowState.PENDING, invoice := invoice,
      logs := [logEntry ts ("Workflow initialized for Invoice #" ++ invoice.invoice_id)],
      math_verification := none, memory_context := none, human_action_needed := none }
  let engine1 : WorkflowEngine :=
    { engine with
      active_workflows := dictSet w_id context engine.active_workflows }
  (w_id, execute_step ts w_id engine1)

/-- Embedding of `WorkflowEngine.signal_human_approval`. -/

def signal_human_approval (w_id : String) (approved : Bool) (ts : String)
    (engine : WorkflowEngine) : WorkflowEngine :=
  match dictGet? w_id engine.active_workflows with
  | none => engine
  | some ctx =>
    if ctx.status ≠ WorkflowState.AWAITING_HUMAN then engine
    else
      let ctx' :=
        if approved then
          { ctx with
            logs := ctx.logs ++ [logEntry ts "Signal Received: CFO APPROVED. Resuming..."]
            status := WorkflowState.APPROVED
            human_action_needed := none }
        else
          { ctx with
            logs := ctx.logs ++ [logEntry ts "Signal Received: CFO REJECTED. Terminating."]
            status := WorkflowState.REJECTED
            human_action_needed := none }
      { engine with
        active_workflows := dictSet w_id ctx' engine.active_workflows }

/-- The invoice, context and engine used to witness the HIGH-risk gate. -/

def darkInvoice : Invoice :=
  { invoice_id := "INV-D", vendor_name := "Dark Web Corp", iban := "NL00RABO9876543210",
    date := none, amount := 500, currency := "EUR", department := "Unknown" }

/-- A freshly started context for `darkInvoice`. -/

def darkContext : WorkflowContext :=
  { workflow_id := "w1", status := WorkflowState.PENDING, invoice := darkInvoice,
    logs := [], math_verification := none, memory_context := none,
    human_action_needed := none }

/-- Registry holding only `darkContext`. -/

def darkEngine : WorkflowEngine :=
  { active_workflows := [("w1", darkContext)] }

/-- A validator outcome claiming the math is fine. -/

def mathOkResult : ValidationResult :=
  { valid := true, reason := "Math Validated", debug := [] }

/-- The engine used to witness C10: a low-risk, small-amount invoice. -/

def awsInvoice : Invoice :=
  { invoice_id := "INV-1", vendor_name := "AWS", iban := "NL00RABO0123456789",
    date := none, amount := 120, currency := "EUR", department := "IT" }

/-- A freshly started context for `awsInvoice`. -/

def awsContext : WorkflowContext :=
  { workflow_id := "w2", status := WorkflowState.PENDING, invoice := awsInvoice,
    logs := [], math_verification := none, memory_context := none,
    human_action_needed := none }

/-- Registry holding only `awsContext`. -/

def awsEngine : WorkflowEngine :=
  { active_workflows := [("w2", awsContext)] }

/-- A validator outcome whose boolean verdict is `false`. -/

def mathBadResult : ValidationResult :=
  { valid := false, reason := "Tax Logic Error: deviation too large", debug := [] }

/-- An awaiting-human context for the signal witness. -/

def pausedContext : WorkflowContext :=
  { workflow_id := "w3", status := WorkflowState.AWAITING_HUMAN, invoice := darkInvoice,
    logs := [], math_verification := none, memory_context := none,
    human_action_needed := some "High Risk Vendor detected. CFO Approval Required." }

/-- Registry holding only `pausedContext`. -/

def pausedEngine : WorkflowEngine :=
  { active_workflows := [("w3", pausedContext)] }

/-- A second invoice sharing nothing with `awsInvoice` but the vendor. -/

def awsInvoiceB : Invoice :=
  { invoice_id := "INV-2", vendor_name := "AWS", iban := "NL00RABO0000000002",
    date := none, amount := 200, currency := "EUR", department := "HR" }

/-! ## `backend/processor.py` — `PDFProcessor._normalize_currency_string`

The normalizer works on the text captured for the amount (digits, dots and
commas); it is embedded on the character list of that string. -/

/-- Python `str.rfind(ch)`: highest index of `ch`, `-1` when absent. -/

def rfind (ch : Char) : List Char → Int
  | [] => -1
  | c :: cs =>
    let r := rfind ch cs
    if 0 ≤ r then r + 1 else if c = ch then 0 else -1

/-- Python `value_str.split(',')[-1]`: the suffix after the last comma (the
whole string when no comma occurs). -/

def afterLastComma (s : List Char) : List Char :=
  (s.reverse.takeWhile (fun c => c ≠ ',')).reverse

/-- Numeric value of a digit string. -/

def digitsVal (l : List Char) : Nat :=
  l.foldl (fun a c => 10 * a + (c.toNat - 48)) 0

/-- Split at the first dot: the characters before it and, when a dot is
present, the characters after it. -/

def splitDot : List Char → List Char × Option (List Char)
  | [] => ([], none)
  | c :: cs =>
    if c = '.' then ([], some cs)
    else
      let r := splitDot cs
      (c :: r.1, r.2)

/-- Python `float(s)` on the digit/dot strings reachable from the amount
regex: at most one dot and at least one digit, nothing else; `none` models
the `ValueError` caught by the normalizer. -/

def pyFloat? (s : List Char) : Option Rat :=
  match splitDot s with
  | (ip, none) =>
    if ip ≠ [] ∧ ip.all Char.isDigit then some (digitsVal ip : Rat) else none
  | (ip, some fp) =>
    if ip ++ fp ≠ [] ∧ ip.all Char.isDigit ∧ fp.all Char.isDigit then
      some ((digitsVal ip : Rat) + (digitsVal fp : Rat) / (10 : Rat) ^ fp.length)
    else none

/-- Embedding of `PDFProcessor._normalize_currency_string`; a parse failure yields `0.0`. -/

def normalize_currency_string (s : List Char) : Rat :=
  if ',' ∈ s ∧ '.' ∈ s then
    if rfind ',' s > rfind '.' s then
      (pyFloat? ((s.filter (fun c => c ≠ '.')).map
        (fun c => if c = ',' then '.' else c))).getD 0
    else
      (pyFloat? (s.filter (fun c => c ≠ ','))).getD 0
  else if ',' ∈ s then
    if (afterLastComma s).length = 2 then
      (pyFloat? (s.map (fun c => if c = ',' then '.' else c))).getD 0
    else
      (pyFloat? (s.filter (fun c => c ≠ ','))).getD 0
  else
    (pyFloat? s).getD 0

/-! ## Theorems -/

/-- Evaluation rule for `roundHalfUp2` on nonnegative inputs, used to compute
concrete instances. -/

theorem roundHalfUp2_eval {q : Rat} {z : Int} (h0 : 0 ≤ q)
    (h1 : (z : Rat) ≤ q * 100 + 1 / 2) (h2 : q * 100 + 1 / 2 < z + 1) :
    roundHalfUp2 q = (z : Rat) / 100 := by
  rw [roundHalfUp2, if_pos h0, Int.floor_eq_iff.mpr ⟨h1, h2⟩]

theorem calculate_tax_100_21 : calculate_tax 100 (21 / 100) = 21 := by
  have h : calculate_tax 100 (21 / 100) = ((2100 : Int) : Rat) / 100 :=
    roundHalfUp2_eval (by norm_num) (by norm_num) (by norm_num)
  rw [h]; norm_num

/-- Claim C2 — `validate_invoice_math` returns `valid = true` iff the subtotal
and tax sum decimal-exactly to the total and the tax deviates from
`round_half_up(subtotal * taxRate, 2)` by at most `0.05`; when valid the
reason is `"Math Validated"` with an empty debug payload; when the arithmetic
holds but the deviation exceeds `0.05` the result is invalid with a reason
tagged `"Tax Logic Error"`. -/

theorem c2_validate_valid_iff (subtotal tax_amount total tax_rate : Rat) :
    ((validate_invoice_math subtotal tax_amount total tax_rate).valid = true ↔
      subtotal + tax_amount = total ∧
        |tax_amount - calculate_tax subtotal tax_rate| ≤ 5 / 100) ∧
    ((validate_invoice_math subtotal tax_amount total tax_rate).valid = true →
      (validate_invoice_math subtotal tax_amount total tax_rate).reason = "Math Validated" ∧
      (validate_invoice_math subtotal tax_amount total tax_rate).debug = []) ∧
    (subtotal + tax_amount = total →
      5 / 100 < |tax_amount - calculate_tax subtotal tax_rate| →
      (validate_invoice_math subtotal tax_amount total tax_rate).valid = false ∧
      ∃ s, (validate_invoice_math subtotal tax_amount total tax_rate).reason
        = "Tax Logic Error" ++ s) := by
  simp only [validate_invoice_math]
  split_ifs with h1 h2
  · exact ⟨by simp [h1], by simp, fun heq _ => absurd heq h1⟩
  · have heq : subtotal + tax_amount = total := not_ne_iff.mp h1
    have hgt : 5 / 100 < |tax_amount - calculate_tax subtotal tax_rate| := by
      rw [abs_sub_comm]; exact h2
    refine ⟨by simp [not_le.mpr hgt], by simp, fun _ _ => ⟨rfl, ?_⟩⟩
    refine ⟨": Tax amount doesn't match rate " ++ toString tax_rate ++ ". Diff: "
      ++ toString |calculate_tax subtotal tax_rate - tax_amount|, ?_⟩
    simp only [← String.append_assoc]
    rfl
  · have heq : subtotal + tax_amount = total := not_ne_iff.mp h1
    have hle : |tax_amount - calculate_tax subtotal tax_rate| ≤ 5 / 100 := by
      rw [abs_sub_comm]; exact not_lt.mp h2
    refine ⟨by simp [heq, hle], fun _ => ⟨rfl, rfl⟩, fun _ hlt => absurd hlt (not_lt.mpr hle)⟩

/-- Witness for C2: the tax-logic gate fires on `(100, 10, 110, 0.21)`. -/

theorem c2_validate_valid_iff_witness :
    (validate_invoice_math 100 10 110 (21 / 100)).valid = false ∧
    ∃ s, (validate_invoice_math 100 10 110 (21 / 100)).reason = "Tax Logic Error" ++ s :=
  (c2_validate_valid_iff 100 10 110 (21 / 100)).2.2 (by norm_num)
    (by rw [calculate_tax_100_21]; norm_num)

/-- Evaluation rule for `rne` when the fraction is below one half. -/

theorem rne_eval_lt {x : Rat} {n : Int} (hfl : ⌊x⌋ = n) (h : x - n < 1 / 2) : rne x = n := by
  simp only [rne, hfl]
  rw [if_neg (not_lt.mpr (le_of_lt h)), if_pos h]

/-- Evaluation rule for `floatOfRat` from its exponent and rounded
significand. -/

theorem floatOfRat_eval {q : Rat} {t n : Int} (hq : q ≠ 0)
    (ht : max (Int.log 2 |q| - 52) (-1074) = t)
    (hrne : rne (q / (2 : Rat) ^ t) = n) :
    floatOfRat q = (n : Rat) * (2 : Rat) ^ t := by
  rw [floatOfRat, if_neg hq, ht]
  dsimp only
  rw [hrne]

/-- The double conversion is exact at `4` (a representable value). -/

theorem floatOfRat_four : floatOfRat (4 : Rat) = 4 := by
  have hlog : Int.log 2 |(4 : Rat)| = 2 := by
    rw [show |(4 : Rat)| = ((4 : Nat) : Rat) by norm_num, Int.log_natCast]
    have hl : Nat.log 2 4 = 2 := by
      apply Nat.log_eq_of_pow_le_of_lt_pow <;> norm_num
    rw [hl]
    norm_num
  have ht : max (Int.log 2 |(4 : Rat)| - 52) (-1074) = -50 := by
    rw [hlog]
    decide
  have hx : (4 : Rat) / (2 : Rat) ^ (-50 : Int) = 4503599627370496 := by
    rw [div_eq_mul_inv, zpow_neg, inv_inv,
      show ((50 : Int)) = ((50 : Nat) : Int) from rfl, zpow_natCast]
    norm_num
  have hfl : ⌊(4503599627370496 : Rat)⌋ = 4503599627370496 := by
    rw [Int.floor_eq_iff]
    constructor <;> push_cast <;> norm_num
  have hrne : rne ((4 : Rat) / (2 : Rat) ^ (-50 : Int)) = 4503599627370496 := by
    rw [hx]
    refine rne_eval_lt hfl ?_
    push_cast
    norm_num
  rw [floatOfRat_eval (by norm_num) ht hrne, zpow_neg,
    show ((50 : Int)) = ((50 : Nat) : Int) from rfl, zpow_natCast]
  norm_num

/-- The double conversion is lossy at `-9999999999999999.1`: the value sits
above `2 ^ 53`, where doubles are spaced `2` apart, and rounds to `-10^16`. -/

theorem floatOfRat_large : floatOfRat (-(99999999999999991 / 10) : Rat) = -(10 ^ 16 : Rat) := by
  have hlog : Int.log 2 |(-(99999999999999991 / 10) : Rat)| = 53 := by
    have habs : |(-(99999999999999991 / 10) : Rat)| = 99999999999999991 / 10 := by
      rw [abs_of_neg (by norm_num)]
      norm_num
    rw [habs, Int.log_of_one_le_right 2 (by norm_num)]
    have hfl : ⌊(99999999999999991 / 10 : Rat)⌋₊ = 9999999999999999 := by
      rw [Nat.floor_eq_iff (by norm_num)]
      norm_num
    rw [hfl]
    have hl : Nat.log 2 9999999999999999 = 53 := by
      apply Nat.log_eq_of_pow_le_of_lt_pow <;> norm_num
    rw [hl]
    norm_num
  have ht : max (Int.log 2 |(-(99999999999999991 / 10) : Rat)| - 52) (-1074) = 1 := by
    rw [hlog]
    decide
  have hx : (-(99999999999999991 / 10) : Rat) / (2 : Rat) ^ (1 : Int)
      = -(99999999999999991 / 20) := by
    rw [zpow_one]
    norm_num
  have hfl : ⌊(-(99999999999999991 / 20) : Rat)⌋ = -5000000000000000 := by
    rw [Int.floor_eq_iff]
    constructor <;> push_cast <;> norm_num
  have hrne : rne ((-(99999999999999991 / 10) : Rat) / (2 : Rat) ^ (1 : Int))
      = -5000000000000000 := by
    rw [hx]
    refine rne_eval_lt hfl ?_
    push_cast
    norm_num
  rw [floatOfRat_eval (by norm_num) ht hrne, zpow_one]
  norm_num

/-- Claim C6 counterexample — `financial_body.py` stores `float(diff)` in the
debug payload, a lossy binary64 conversion: at `subtotal = 10^16`,
`tax = 0.1`, `total = 1` the decimal-exact difference is
`-9999999999999999.1`, but the stored double is `-10^16`, so the claim's
"diff field equals total - (subtotal + tax) exactly, decimal-exact" is
false at this input. -/

theorem c6_counterexample :
    (validate_invoice_math (10 ^ 16) (1 / 10) 1 (21 / 100)).debug.lookup "diff"
      = some (-(10 ^ 16 : Rat)) ∧
    (-(10 ^ 16 : Rat)) ≠ (1 : Rat) - ((10 : Rat) ^ 16 + 1 / 10) := by
  constructor
  · have hlookup : (validate_invoice_math (10 ^ 16) (1 / 10) 1 (21 / 100)).debug.lookup "diff"
        = some (floatOfRat ((1 : Rat) - ((10 : Rat) ^ 16 + 1 / 10))) := by
      simp only [validate_invoice_math]
      rw [if_pos (show ((10 : Rat) ^ 16 + 1 / 10) ≠ 1 by norm_num)]
      rfl
    rw [hlookup, show ((1 : Rat) - ((10 : Rat) ^ 16 + 1 / 10))
      = -(99999999999999991 / 10) by norm_num, floatOfRat_large]
  · norm_num

/-- Claim C6 (amended) — whenever `subtotal + tax ≠ total`, the validator
rejects with a reason tagged `"Arithmetic Error"` and a debug `diff` entry
holding the binary64 round-to-nearest-even value of
`total - (subtotal + tax)`; the stored double equals the decimal-exact
difference only when that difference is itself representable as a double. -/

theorem c6_arithmetic_error (subtotal tax_amount total tax_rate : Rat)
    (h : subtotal + tax_amount ≠ total) :
    (validate_invoice_math subtotal tax_amount total tax_rate).valid = false ∧
    (∃ s, (validate_invoice_math subtotal tax_amount total tax_rate).reason
      = "Arithmetic Error" ++ s) ∧
    (validate_invoice_math subtotal tax_amount total tax_rate).debug.lookup "diff"
      = some (floatOfRat (total - (subtotal + tax_amount))) := by
  simp only [validate_invoice_math]
  rw [if_pos h]
  refine ⟨rfl, ⟨": Subtotal + Tax != Total. Diff: "
    ++ toString (total - (subtotal + tax_amount)), ?_⟩, by rfl⟩
  simp only [← String.append_assoc]
  rfl

/-- Witness for the amended C6 at `(100, 21, 125, 0.21)`: the difference `4`
is representable, so the stored double is exactly `4`. -/

theorem c6_arithmetic_error_witness :
    (validate_invoice_math 100 21 125 (21 / 100)).valid = false ∧
    (∃ s, (validate_invoice_math 100 21 125 (21 / 100)).reason = "Arithmetic Error" ++ s) ∧
    (validate_invoice_math 100 21 125 (21 / 100)).debug.lookup "diff" = some 4 := by
  have h := c6_arithmetic_error 100 21 125 (21 / 100) (by norm_num)
  refine ⟨h.1, h.2.1, ?_⟩
  rw [h.2.2, show (125 : Rat) - (100 + 21) = 4 by norm_num, floatOfRat_four]

/-- Claim C3 — `process_invoice` runs all four compliance checks; any FAIL
forces `REJECTED`/100, otherwise any WARNING forces `DRAFT`/50, otherwise
`APPROVED`/0 — and exactly in that last case the invoice is posted exactly
once to the system-of-record sync collaborator. -/

theorem c3_process_invoice_aggregation (svc : ComplianceService) (now : Rat) (invoice : Invoice) :
    (process_invoice svc now invoice).1.checks
      = [verify_financial_routing svc now invoice, assess_vendor_risk svc now invoice,
         validate_budgetary_alignment svc now invoice,
         verify_contractual_standing svc now invoice] ∧
    ((∃ c ∈ (process_invoice svc now invoice).1.checks, c.status = CheckStatus.FAIL) →
      (process_invoice svc now invoice).1.final_status = "REJECTED" ∧
      (process_invoice svc now invoice).1.risk_score = 100 ∧
      (process_invoice svc now invoice).2 = 0) ∧
    ((∀ c ∈ (process_invoice svc now invoice).1.checks, c.status ≠ CheckStatus.FAIL) →
      (∃ c ∈ (process_invoice svc now invoice).1.checks, c.status = CheckStatus.WARNING) →
      (process_invoice svc now invoice).1.final_status = "DRAFT" ∧
      (process_invoice svc now invoice).1.risk_score = 50 ∧
      (process_invoice svc now invoice).2 = 0) ∧
    ((∀ c ∈ (process_invoice svc now invoice).1.checks,
        c.status ≠ CheckStatus.FAIL ∧ c.status ≠ CheckStatus.WARNING) →
      (process_invoice svc now invoice).1.final_status = "APPROVED" ∧
      (process_invoice svc now invoice).1.risk_score = 0 ∧
      (process_invoice svc now invoice).2 = 1) ∧
    ((process_invoice svc now invoice).2 = 1 ↔
      ∀ c ∈ (process_invoice svc now invoice).1.checks,
        c.status ≠ CheckStatus.FAIL ∧ c.status ≠ CheckStatus.WARNING) := by
  have hfail : ∀ cs : List CheckResult,
      cs.filter (fun c => c.status == CheckStatus.FAIL) ≠ [] ↔
        ∃ c ∈ cs, c.status = CheckStatus.FAIL := by
    intro cs
    rw [Ne, List.filter_eq_nil_iff]
    push_neg
    simp
  have hwarn : ∀ cs : List CheckResult,
      cs.filter (fun c => c.status == CheckStatus.WARNING) ≠ [] ↔
        ∃ c ∈ cs, c.status = CheckStatus.WARNING := by
    intro cs
    rw [Ne, List.filter_eq_nil_iff]
    push_neg
    simp
  simp only [process_invoice]
  split_ifs with h1 h2
  · obtain ⟨c, hc, hcs⟩ := (hfail _).mp h1
    refine ⟨rfl, fun _ => ⟨rfl, rfl, rfl⟩, fun hno _ => absurd hcs (hno c hc),
      fun hall => absurd hcs (hall c hc).1,
      iff_of_false (by norm_num) (fun hall => (hall c hc).1 hcs)⟩
  · have hnof : ∀ c ∈ [verify_financial_routing svc now invoice,
        assess_vendor_risk svc now invoice, validate_budgetary_alignment svc now invoice,
        verify_contractual_standing svc now invoice], c.status ≠ CheckStatus.FAIL := by
      intro c hc
      have := List.filter_eq_nil_iff.mp (not_not.mp h1) c hc
      simpa using this
    obtain ⟨c, hc, hcs⟩ := (hwarn _).mp h2
    refine ⟨rfl, fun hex => ?_, fun _ _ => ⟨rfl, rfl, rfl⟩,
      fun hall => absurd hcs (hall c hc).2,
      iff_of_false (by norm_num) (fun hall => (hall c hc).2 hcs)⟩
    · obtain ⟨d, hd, hds⟩ := hex
      exact absurd hds (hnof d hd)
  · have hnof : ∀ c ∈ [verify_financial_routing svc now invoice,
        assess_vendor_risk svc now invoice, validate_budgetary_alignment svc now invoice,
        verify_contractual_standing svc now invoice], c.status ≠ CheckStatus.FAIL := by
      intro c hc
      have := List.filter_eq_nil_iff.mp (not_not.mp h1) c hc
      simpa using this
    have hnow : ∀ c ∈ [verify_financial_routing svc now invoice,
        assess_vendor_risk svc now invoice, validate_budgetary_alignment svc now invoice,
        verify_contractual_standing svc now invoice], c.status ≠ CheckStatus.WARNING := by
      intro c hc
      have := List.filter_eq_nil_iff.mp (not_not.mp h2) c hc
      simpa using this
    refine ⟨rfl, fun hex => ?_, fun _ hex => ?_, fun _ => ⟨rfl, rfl, rfl⟩,
      iff_of_true rfl (fun c hc => ⟨hnof c hc, hnow c hc⟩)⟩
    · obtain ⟨d, hd, hds⟩ := hex
      exact absurd hds (hnof d hd)
    · obtain ⟨d, hd, hds⟩ := hex
      exact absurd hds (hnow d hd)

/-- Witness for C3: with no reference data and a sentinel invoice, a FAIL is
present and processing rejects without posting to the system of record. -/

theorem c3_process_invoice_aggregation_witness :
    (process_invoice emptyService 0 sentinelInvoice).1.final_status = "REJECTED" ∧
    (process_invoice emptyService 0 sentinelInvoice).1.risk_score = 100 ∧
    (process_invoice emptyService 0 sentinelInvoice).2 = 0 :=
  (c3_process_invoice_aggregation emptyService 0 sentinelInvoice).2.1 (by decide)

/-- Claim C7 counterexample — the space-stripped invoice IBAN does appear in
the space-stripped vendor IBAN set and is not the sentinel, yet the routing
check FAILs: the code never strips the invoice-side IBAN, so the claim's
"passes exactly when the whitespace-stripped invoice IBAN appears" is false
on this input. -/

theorem c7_counterexample :
    removeSpaces spacedIbanInvoice.iban
        ∈ spacedIbanService.vendors.map (fun v => removeSpaces v.iban) ∧
    spacedIbanInvoice.iban ≠ "UNKNOWN" ∧
    (verify_financial_routing spacedIbanService 0 spacedIbanInvoice).status
      = CheckStatus.FAIL := by
  decide

/-- Claim C7 (amended) — the routing check passes exactly when the invoice
IBAN, compared as-is, appears in the vendor directory's space-stripped IBAN
set; the sentinel `"UNKNOWN"` always fails; an unmatched IBAN fails with the
offending value in the message. -/

theorem c7_routing_amended (svc : ComplianceService) (now : Rat) (invoice : Invoice) :
    ((verify_financial_routing svc now invoice).status = CheckStatus.PASS ↔
      invoice.iban ≠ "UNKNOWN" ∧
        invoice.iban ∈ svc.vendors.map (fun v => removeSpaces v.iban)) ∧
    (invoice.iban = "UNKNOWN" →
      (verify_financial_routing svc now invoice).status = CheckStatus.FAIL) ∧
    (invoice.iban ≠ "UNKNOWN" →
      invoice.iban ∉ svc.vendors.map (fun v => removeSpaces v.iban) →
      (verify_financial_routing svc now invoice).status = CheckStatus.FAIL ∧
      (verify_financial_routing svc now invoice).message
        = "Unauthorized IBAN detected: " ++ invoice.iban) := by
  simp only [verify_financial_routing]
  split_ifs with h1 h2
  · exact ⟨iff_of_false (by decide) (fun h => h.1 h1), fun _ => rfl,
      fun hne _ => absurd h1 hne⟩
  · exact ⟨iff_of_true rfl ⟨h1, h2⟩, fun h => absurd h h1,
      fun _ hnot => absurd h2 hnot⟩
  · exact ⟨iff_of_false (by decide) (fun h => h2 h.2), fun h => absurd h h1,
      fun _ _ => ⟨rfl, rfl⟩⟩

/-- Witness for the amended C7: the unspaced IBAN is authorized and the
check passes. -/

theorem c7_routing_amended_witness :
    (verify_financial_routing spacedIbanService 0 cleanIbanInvoice).status
      = CheckStatus.PASS :=
  (c7_routing_amended spacedIbanService 0 cleanIbanInvoice).1.mpr (by decide)

/-! ## Registry helper lemmas -/

theorem dictGet?_dictSet_self {α : Type} (k : String) (v : α) (l : List (String × α)) :
    dictGet? k (dictSet k v l) = some v := by
  induction l with
  | nil => simp [dictGet?, dictSet]
  | cons p rest ih =>
    obtain ⟨a, b⟩ := p
    by_cases h : a = k
    · simp [dictSet, dictGet?, h]
    · simp [dictSet, dictGet?, h, ih]

theorem dictGet?_dictSet_ne {α : Type} {k k' : String} (v : α) (l : List (String × α))
    (h : k' ≠ k) : dictGet? k' (dictSet k v l) = dictGet? k' l := by
  have hkk : ¬(k = k') := fun hh => h hh.symm
  induction l with
  | nil => simp [dictGet?, dictSet, hkk]
  | cons p rest ih =>
    obtain ⟨a, b⟩ := p
    by_cases hak : a = k
    · subst hak
      simp [dictSet, dictGet?, hkk]
    · simp [dictSet, dictGet?, hak, ih]

theorem execute_step_with_other (vOut : Except String ValidationResult) (ts w_id k : String)
    (engine : WorkflowEngine) (h : k ≠ w_id) :
    dictGet? k (execute_step_with vOut ts w_id engine).active_workflows
      = dictGet? k engine.active_workflows := by
  unfold execute_step_with
  cases hl : dictGet? w_id engine.active_workflows with
  | none => rfl
  | some c => simp [dictGet?_dictSet_ne _ _ h]

theorem step_context_invoice (vOut : Except String ValidationResult) (ts : String)
    (ctx0 : WorkflowContext) : (step_context vOut ts ctx0).invoice = ctx0.invoice := by
  rcases vOut with e | r <;> simp only [step_context, pause_for_human] <;> split_ifs <;> rfl

theorem step_context_logs (vOut : Except String ValidationResult) (ts : String)
    (ctx0 : WorkflowContext) :
    ∃ ms : List String, ms ≠ [] ∧
      (step_context vOut ts ctx0).logs = ctx0.logs ++ ms.map (logEntry ts) := by
  rcases vOut with e | r <;> simp only [step_context, pause_for_human] <;> split_ifs
  · exact ⟨["Agent execution started.",
      "Memory Lookup: Identified as " ++ (retrieve_context ctx0.invoice.vendor_name).risk
        ++ " Risk.",
      "Workflow Paused: " ++ "High Risk Vendor detected. CFO Approval Required."],
      by simp, by simp [List.append_assoc]⟩
  · exact ⟨["Agent execution started.",
      "Memory Lookup: Identified as " ++ (retrieve_context ctx0.invoice.vendor_name).risk
        ++ " Risk.",
      "Workflow Paused: " ++ "Deterministic Math Engine Error. Manual Review needed."],
      by simp, by simp [List.append_assoc]⟩
  · exact ⟨["Agent execution started.",
      "Memory Lookup: Identified as " ++ (retrieve_context ctx0.invoice.vendor_name).risk
        ++ " Risk.",
      "Workflow Paused: " ++ "High Risk Vendor detected. CFO Approval Required."],
      by simp, by simp [List.append_assoc]⟩
  · exact ⟨["Agent execution started.",
      "Memory Lookup: Identified as " ++ (retrieve_context ctx0.invoice.vendor_name).risk
        ++ " Risk.",
      "Workflow Paused: " ++ "Large Transaction (> €10k). Variance Protocol initiated."],
      by simp, by simp [List.append_assoc]⟩
  · exact ⟨["Agent execution started.",
      "Memory Lookup: Identified as " ++ (retrieve_context ctx0.invoice.vendor_name).risk
        ++ " Risk.",
      "Auto-Approval Logic satisfied. Transaction Released."],
      by simp, by simp [List.append_assoc]⟩

/-- Claim C1 — the decision step: HIGH vendor risk suspends for the CFO and
never approves on that pass; otherwise a raised validator error suspends for
manual review; otherwise an amount above 10000 suspends via the
large-transaction gate regardless of the math result; otherwise the step
approves with the auto-approval audit entry. -/

theorem c1_execute_step_gates (engine : WorkflowEngine) (w_id ts : String)
    (ctx : WorkflowContext) (vOut : Except String ValidationResult)
    (hlookup : dictGet? w_id engine.active_workflows = some ctx) :
    ∃ ctx', dictGet? w_id (execute_step_with vOut ts w_id engine).active_workflows = some ctx' ∧
      ((retrieve_context ctx.invoice.vendor_name).risk = "HIGH" →
        ctx'.status = WorkflowState.AWAITING_HUMAN ∧
        ctx'.human_action_needed = some "High Risk Vendor detected. CFO Approval Required." ∧
        ctx'.status ≠ WorkflowState.APPROVED) ∧
      ((retrieve_context ctx.invoice.vendor_name).risk ≠ "HIGH" →
        ∀ e, vOut = Except.error e →
        ctx'.status = WorkflowState.AWAITING_HUMAN ∧
        ctx'.human_action_needed
          = some "Deterministic Math Engine Error. Manual Review needed.") ∧
      ((retrieve_context ctx.invoice.vendor_name).risk ≠ "HIGH" →
        ∀ r, vOut = Except.ok r → ctx.invoice.amount > 10000 →
        ctx'.status = WorkflowState.AWAITING_HUMAN ∧
        ∃ s t, ctx'.human_action_needed = some (s ++ ("Large Transaction" ++ t))) ∧
      ((retrieve_context ctx.invoice.vendor_name).risk ≠ "HIGH" →
        ∀ r, vOut = Except.ok r → ¬ctx.invoice.amount > 10000 →
        ctx'.status = WorkflowState.APPROVED ∧
        ∃ l, ctx'.logs
          = l ++ [logEntry ts "Auto-Approval Logic satisfied. Transaction Released."]) := by
  refine ⟨step_context vOut ts ctx, ?_, ?_, ?_, ?_, ?_⟩
  · simp only [execute_step_with, hlookup]
    exact dictGet?_dictSet_self _ _ _
  · intro hr
    refine ⟨?_, ?_, ?_⟩ <;> simp [step_context, pause_for_human, hr]
  · intro hr e he
    subst he
    exact ⟨by simp [step_context, pause_for_human, hr],
      by simp [step_context, pause_for_human, hr]⟩
  · intro hr r hok hamt
    subst hok
    refine ⟨by simp [step_context, pause_for_human, hr, hamt],
      "", " (> €10k). Variance Protocol initiated.", ?_⟩
    simp [step_context, pause_for_human, hr, hamt]
  · intro hr r hok hamt
    subst hok
    refine ⟨by simp [step_context, hr, hamt], ?_, ?_⟩
    · exact ctx.logs ++ [logEntry ts "Agent execution started."]
        ++ [logEntry ts ("Memory Lookup: Identified as "
          ++ (retrieve_context ctx.invoice.vendor_name).risk ++ " Risk.")]
    · simp [step_context, hr, hamt]

/-- Witness for C1: the HIGH-risk vendor pass suspends with the CFO reason. -/

theorem c1_execute_step_gates_witness :
    ∃ ctx', dictGet? "w1"
        (execute_step_with (Except.ok mathOkResult) "09:00:00" "w1" darkEngine).active_workflows
        = some ctx' ∧
      ctx'.status = WorkflowState.AWAITING_HUMAN ∧
      ctx'.human_action_needed = some "High Risk Vendor detected. CFO Approval Required." := by
  obtain ⟨ctx', hget, h1, h2, h3, h4⟩ :=
    c1_execute_step_gates darkEngine "w1" "09:00:00" darkContext (Except.ok mathOkResult)
      (by decide)
  have hh := h1 (by decide)
  exact ⟨ctx', hget, hh.1, hh.2.1⟩

/-- Claim C10 (implicit) — the boolean verdict returned by the validator is
never read by the step: any two `Except.ok` outcomes produce identical
engines, and with risk not HIGH, amount within threshold and no exception
the step approves even when `valid = false`. -/

theorem c10_validator_verdict_ignored :
    (∀ (r r' : ValidationResult) (ts w_id : String) (engine : WorkflowEngine),
      execute_step_with (Except.ok r) ts w_id engine
        = execute_step_with (Except.ok r') ts w_id engine) ∧
    (∀ (engine : WorkflowEngine) (w_id ts : String) (ctx : WorkflowContext)
      (r : ValidationResult),
      dictGet? w_id engine.active_workflows = some ctx →
      (retrieve_context ctx.invoice.vendor_name).risk ≠ "HIGH" →
      ¬ctx.invoice.amount > 10000 →
      r.valid = false →
      ∃ ctx', dictGet? w_id (execute_step_with (Except.ok r) ts w_id engine).active_workflows
          = some ctx' ∧ ctx'.status = WorkflowState.APPROVED) := by
  constructor
  · intro r r' ts w_id engine
    rfl
  · intro engine w_id ts ctx r hl hr hamt hvalid
    refine ⟨step_context (Except.ok r) ts ctx, ?_, ?_⟩
    · simp only [execute_step_with, hl]
      exact dictGet?_dictSet_self _ _ _
    · simp [step_context, hr, hamt]

/-- Witness for C10: an invalid math verdict still ends in APPROVED. -/

theorem c10_validator_verdict_ignored_witness :
    mathBadResult.valid = false ∧
    ∃ ctx', dictGet? "w2"
        (execute_step_with (Except.ok mathBadResult) "09:00:00" "w2" awsEngine).active_workflows
        = some ctx' ∧ ctx'.status = WorkflowState.APPROVED :=
  ⟨rfl, c10_validator_verdict_ignored.2 awsEngine "w2" "09:00:00" awsContext mathBadResult
    (by decide) (by decide) (by decide) rfl⟩

/-- Claim C4 — `signal_human_approval` is a no-op on unknown ids and on
contexts outside `AWAITING_HUMAN` (in particular the absorbing terminal
states); on an awaiting context it moves to `APPROVED` or `REJECTED`
according to the boolean, clears the pending reason and touches no other
context; and signalling twice is the same as signalling once. -/

theorem c4_signal_semantics :
    (∀ (w_id : String) (approved : Bool) (ts : String) (engine : WorkflowEngine),
      dictGet? w_id engine.active_workflows = none →
      signal_human_approval w_id approved ts engine = engine) ∧
    (∀ (w_id : String) (approved : Bool) (ts : String) (engine : WorkflowEngine)
      (ctx : WorkflowContext),
      dictGet? w_id engine.active_workflows = some ctx →
      ctx.status ≠ WorkflowState.AWAITING_HUMAN →
      signal_human_approval w_id approved ts engine = engine) ∧
    (∀ (w_id ts : String) (engine : WorkflowEngine) (ctx : WorkflowContext),
      dictGet? w_id engine.active_workflows = some ctx →
      ctx.status = WorkflowState.AWAITING_HUMAN →
      ∃ ctx', dictGet? w_id (signal_human_approval w_id true ts engine).active_workflows
          = some ctx' ∧
        ctx'.status = WorkflowState.APPROVED ∧ ctx'.human_action_needed = none ∧
        ∀ k, k ≠ w_id →
          dictGet? k (signal_human_approval w_id true ts engine).active_workflows
            = dictGet? k engine.active_workflows) ∧
    (∀ (w_id ts : String) (engine : WorkflowEngine) (ctx : WorkflowContext),
      dictGet? w_id engine.active_workflows = some ctx →
      ctx.status = WorkflowState.AWAITING_HUMAN →
      ∃ ctx', dictGet? w_id (signal_human_approval w_id false ts engine).active_workflows
          = some ctx' ∧
        ctx'.status = WorkflowState.REJECTED ∧ ctx'.human_action_needed = none ∧
        ∀ k, k ≠ w_id →
          dictGet? k (signal_human_approval w_id false ts engine).active_workflows
            = dictGet? k engine.active_workflows) ∧
    (∀ (w_id : String) (b b' : Bool) (ts ts' : String) (engine : WorkflowEngine),
      signal_human_approval w_id b' ts' (signal_human_approval w_id b ts engine)
        = signal_human_approval w_id b ts engine) := by
  refine ⟨?_, ?_, ?_, ?_, ?_⟩
  · intro w_id approved ts engine h
    simp [signal_human_approval, h]
  · intro w_id approved ts engine ctx h hst
    simp [signal_human_approval, h, hst]
  · intro w_id ts engine ctx h hst
    refine ⟨{ ctx with
        logs := ctx.logs ++ [logEntry ts "Signal Received: CFO APPROVED. Resuming..."]
        status := WorkflowState.APPROVED
        human_action_needed := none }, ?_, rfl, rfl, ?_⟩
    · simp only [signal_human_approval, h]
      rw [if_neg (by simp [hst])]
      exact dictGet?_dictSet_self _ _ _
    · intro k hk
      simp only [signal_human_approval, h]
      rw [if_neg (by simp [hst])]
      exact dictGet?_dictSet_ne _ _ hk
  · intro w_id ts engine ctx h hst
    refine ⟨{ ctx with
        logs := ctx.logs ++ [logEntry ts "Signal Received: CFO REJECTED. Terminating."]
        status := WorkflowState.REJECTED
        human_action_needed := none }, ?_, rfl, rfl, ?_⟩
    · simp only [signal_human_approval, h]
      rw [if_neg (by simp [hst])]
      exact dictGet?_dictSet_self _ _ _
    · intro k hk
      simp only [signal_human_approval, h]
      rw [if_neg (by simp [hst])]
      exact dictGet?_dictSet_ne _ _ hk
  · intro w_id b b' ts ts' engine
    cases hl : dictGet? w_id engine.active_workflows with
    | none => simp [signal_human_approval, hl]
    | some ctx =>
      by_cases hst : ctx.status = WorkflowState.AWAITING_HUMAN
      · cases b <;>
          simp [signal_human_approval, hl, hst, dictGet?_dictSet_self]
      · simp [signal_human_approval, hl, hst]

/-- Witness for C4: approving the awaiting context lands in `APPROVED` with
the pending reason cleared. -/

theorem c4_signal_semantics_witness :
    ∃ ctx', dictGet? "w3"
        (signal_human_approval "w3" true "10:00:00" pausedEngine).active_workflows
        = some ctx' ∧
      ctx'.status = WorkflowState.APPROVED ∧ ctx'.human_action_needed = none := by
  obtain ⟨ctx', hget, h1, h2, _⟩ :=
    c4_signal_semantics.2.2.1 "w3" "10:00:00" pausedEngine pausedContext (by decide) (by decide)
  exact ⟨ctx', hget, h1, h2⟩

/-- Claim C8 counterexample — the workflow id is `str(uuid.uuid4())[:8]`, an
8-character random slice: nothing prevents two calls from drawing the same
slice.  When that happens both calls return the same id and the second
`active_workflows[w_id] = context` assignment replaces the first context, so
the claim's unconditional uniqueness/no-replacement is false. -/

theorem c8_counterexample :
    (start_workflow "3f2a9c1d" "09:00:00" awsInvoice { active_workflows := [] }).1
      = (start_workflow "3f2a9c1d" "09:05:00" awsInvoiceB
          (start_workflow "3f2a9c1d" "09:00:00" awsInvoice { active_workflows := [] }).2).1 ∧
    (dictGet? "3f2a9c1d"
        (start_workflow "3f2a9c1d" "09:00:00" awsInvoice
          { active_workflows := [] }).2.active_workflows).map (fun c => c.invoice)
      = some awsInvoice ∧
    (dictGet? "3f2a9c1d"
        (start_workflow "3f2a9c1d" "09:05:00" awsInvoiceB
          (start_workflow "3f2a9c1d" "09:00:00" awsInvoice
            { active_workflows := [] }).2).2.active_workflows).map (fun c => c.invoice)
      = some awsInvoiceB ∧
    awsInvoice ≠ awsInvoiceB := by
  decide

/-- Claim C8 (amended) — `start_workflow` registers the context under the
externally drawn 8-character uuid slice and returns that id; provided the
drawn id is fresh (no collision with a live workflow), distinct calls return
their distinct ids, every previously registered context is left untouched,
and the new context for the given invoice is registered. -/

theorem c8_start_amended (engine : WorkflowEngine) (w_id ts : String) (invoice : Invoice)
    (hfresh : dictGet? w_id engine.active_workflows = none) :
    (start_workflow w_id ts invoice engine).1 = w_id ∧
    (∀ k ctx, dictGet? k engine.active_workflows = some ctx →
      dictGet? k (start_workflow w_id ts invoice engine).2.active_workflows = some ctx) ∧
    ∃ ctx', dictGet? w_id (start_workflow w_id ts invoice engine).2.active_workflows
        = some ctx' ∧ ctx'.invoice = invoice := by
  refine ⟨rfl, ?_, ?_⟩
  · intro k ctx hk
    have hkw : k ≠ w_id := by
      intro hh
      rw [hh, hfresh] at hk
      exact Option.noConfusion hk
    simp only [start_workflow, execute_step, dictGet?_dictSet_self]
    rw [execute_step_with_other _ _ _ _ _ hkw]
    dsimp only
    rw [dictGet?_dictSet_ne _ _ hkw]
    exact hk
  · simp only [start_workflow, execute_step, dictGet?_dictSet_self]
    simp only [execute_step_with, dictGet?_dictSet_self]
    exact ⟨_, rfl, step_context_invoice _ _ _⟩

/-- Witness for the amended C8: a fresh start on an empty registry returns
the id and registers the invoice. -/

theorem c8_start_amended_witness :
    (start_workflow "w9" "09:00:00" awsInvoice { active_workflows := [] }).1 = "w9" ∧
    ∃ ctx', dictGet? "w9"
        (start_workflow "w9" "09:00:00" awsInvoice
          { active_workflows := [] }).2.active_workflows = some ctx' ∧
      ctx'.invoice = awsInvoice := by
  obtain ⟨h1, _, h3⟩ :=
    c8_start_amended { active_workflows := [] } "w9" "09:00:00" awsInvoice rfl
  exact ⟨h1, h3⟩

/-- Claim C9 — per-context audit logs are append-only and never reordered:
the step and the signal handler only ever append to a registered context's
log (and every appended entry is a timestamped `_log` entry for the call's
clock reading, with at least one entry appended whenever the status
changes), and a `start` on a fresh id leaves every previously registered
context untouched. -/

theorem c9_audit_log_append_only :
    (∀ (vOut : Except String ValidationResult) (ts w_id k : String)
      (engine : WorkflowEngine) (ctx : WorkflowContext),
      dictGet? k engine.active_workflows = some ctx →
      ∃ ctx' t, dictGet? k (execute_step_with vOut ts w_id engine).active_workflows = some ctx'
        ∧ ctx'.logs = ctx.logs ++ t
        ∧ (∀ e ∈ t, ∃ m, e = logEntry ts m)
        ∧ (ctx'.status ≠ ctx.status → t ≠ [])) ∧
    (∀ (w_id : String) (approved : Bool) (ts k : String) (engine : WorkflowEngine)
      (ctx : WorkflowContext),
      dictGet? k engine.active_workflows = some ctx →
      ∃ ctx' t, dictGet? k (signal_human_approval w_id approved ts engine).active_workflows
          = some ctx'
        ∧ ctx'.logs = ctx.logs ++ t
        ∧ (∀ e ∈ t, ∃ m, e = logEntry ts m)
        ∧ (ctx'.status ≠ ctx.status → t ≠ [])) ∧
    (∀ (w_id ts : String) (invoice : Invoice) (engine : WorkflowEngine) (k : String)
      (ctx : WorkflowContext),
      dictGet? w_id engine.active_workflows = none →
      dictGet? k engine.active_workflows = some ctx →
      dictGet? k (start_workflow w_id ts invoice engine).2.active_workflows = some ctx) := by
  refine ⟨?_, ?_, ?_⟩
  · intro vOut ts w_id k engine ctx hk
    by_cases hkw : k = w_id
    · subst hkw
      obtain ⟨ms, hms, hlogs⟩ := step_context_logs vOut ts ctx
      refine ⟨step_context vOut ts ctx, ms.map (logEntry ts), ?_, hlogs, ?_, ?_⟩
      · simp only [execute_step_with, hk]
        exact dictGet?_dictSet_self _ _ _
      · intro e he
        obtain ⟨m, _, hm⟩ := List.mem_map.mp he
        exact ⟨m, hm.symm⟩
      · intro _ hnil
        exact hms (List.map_eq_nil_iff.mp hnil)
    · refine ⟨ctx, [], ?_, by simp, by simp, fun hs _ => hs rfl⟩
      rw [execute_step_with_other _ _ _ _ _ hkw]
      exact hk
  · intro w_id approved ts k engine ctx hk
    by_cases hkw : k = w_id
    · subst hkw
      by_cases hst : ctx.status = WorkflowState.AWAITING_HUMAN
      · cases approved
        · refine ⟨{ ctx with
              logs := ctx.logs ++ [logEntry ts "Signal Received: CFO REJECTED. Terminating."]
              status := WorkflowState.REJECTED
              human_action_needed := none },
            [logEntry ts "Signal Received: CFO REJECTED. Terminating."],
            ?_, rfl, ?_, fun _ => by simp⟩
          · simp only [signal_human_approval, hk]
            rw [if_neg (by simp [hst])]
            exact dictGet?_dictSet_self _ _ _
          · intro e he
            exact ⟨"Signal Received: CFO REJECTED. Terminating.", by simpa using he⟩
        · refine ⟨{ ctx with
              logs := ctx.logs ++ [logEntry ts "Signal Received: CFO APPROVED. Resuming..."]
              status := WorkflowState.APPROVED
              human_action_needed := none },
            [logEntry ts "Signal Received: CFO APPROVED. Resuming..."],
            ?_, rfl, ?_, fun _ => by simp⟩
          · simp only [signal_human_approval, hk]
            rw [if_neg (by simp [hst])]
            exact dictGet?_dictSet_self _ _ _
          · intro e he
            exact ⟨"Signal Received: CFO APPROVED. Resuming...", by simpa using he⟩
      · refine ⟨ctx, [], ?_, by simp, by simp, fun hs _ => hs rfl⟩
        simp only [signal_human_approval, hk]
        rw [if_pos hst]
        exact hk
    · refine ⟨ctx, [], ?_, by simp, by simp, fun hs _ => hs rfl⟩
      cases hl : dictGet? w_id engine.active_workflows with
      | none =>
        simp only [signal_human_approval, hl]
        exact hk
      | some c =>
        by_cases hst : c.status ≠ WorkflowState.AWAITING_HUMAN
        · simp only [signal_human_approval, hl]
          rw [if_pos hst]
          exact hk
        · simp only [signal_human_approval, hl]
          rw [if_neg hst]
          dsimp only
          rw [dictGet?_dictSet_ne _ _ hkw]
          exact hk
  · intro w_id ts invoice engine k ctx hw hk
    have hkw : k ≠ w_id := by
      intro hh
      rw [hh, hw] at hk
      exact Option.noConfusion hk
    simp only [start_workflow, execute_step, dictGet?_dictSet_self]
    rw [execute_step_with_other _ _ _ _ _ hkw]
    dsimp only
    rw [dictGet?_dictSet_ne _ _ hkw]
    exact hk

/-- Witness for C9: stepping the registered low-risk context only appends
timestamped entries to its log. -/

theorem c9_audit_log_append_only_witness :
    ∃ ctx' t, dictGet? "w2"
        (execute_step_with (Except.ok mathOkResult) "11:00:00" "w2" awsEngine).active_workflows
        = some ctx'
      ∧ ctx'.logs = awsContext.logs ++ t
      ∧ (∀ e ∈ t, ∃ m, e = logEntry "11:00:00" m)
      ∧ (ctx'.status ≠ awsContext.status → t ≠ []) :=
  c9_audit_log_append_only.1 (Except.ok mathOkResult) "11:00:00" "w2" "w2" awsEngine
    awsContext (by decide)

/-! ### Supporting lemmas for the normalizer -/

theorem isDigit_ne_comma {c : Char} (h : c.isDigit) : c ≠ ',' := by
  intro hc
  subst hc
  exact absurd h (by decide)

theorem isDigit_ne_dot {c : Char} (h : c.isDigit) : c ≠ '.' := by
  intro hc
  subst hc
  exact absurd h (by decide)

theorem rfind_not_mem {ch : Char} {l : List Char} (h : ch ∉ l) : rfind ch l = -1 := by
  induction l with
  | nil => rfl
  | cons c cs ih =>
    have h1 : ch ∉ cs := fun hh => h (List.mem_cons_of_mem _ hh)
    have h2 : ¬c = ch := fun hh => h (hh ▸ List.mem_cons_self _ _)
    simp [rfind, ih h1, h2]

theorem rfind_lt_length (ch : Char) (l : List Char) : rfind ch l < (l.length : Int) := by
  induction l with
  | nil => simp [rfind]
  | cons c cs ih =>
    simp only [rfind, List.length_cons]
    split_ifs <;> push_cast <;> omega

theorem rfind_append_last {ch : Char} (a : List Char) {c : List Char} (hc : ch ∉ c) :
    rfind ch (a ++ ch :: c) = (a.length : Int) := by
  induction a with
  | nil =>
    simp [rfind, rfind_not_mem hc]
  | cons d a' ih =>
    have : 0 ≤ rfind ch (a' ++ ch :: c) := by rw [ih]; positivity
    simp [rfind, ih, this]

theorem rfind_append_of_not_mem_right {ch : Char} (a : List Char) {t : List Char}
    (ht : ch ∉ t) : rfind ch (a ++ t) = rfind ch a := by
  induction a with
  | nil => simp [rfind, rfind_not_mem ht]
  | cons c a' ih => simp [rfind, ih]

theorem takeWhile_append_all {p : Char → Bool} {l : List Char} (r : List Char)
    (h : ∀ x ∈ l, p x) : (l ++ r).takeWhile p = l ++ r.takeWhile p := by
  induction l with
  | nil => rfl
  | cons c cs ih =>
    have hc : p c := h c (List.mem_cons_self _ _)
    have hrest : ∀ x ∈ cs, p x := fun x hx => h x (List.mem_cons_of_mem _ hx)
    simp [List.takeWhile_cons, hc, ih hrest]

theorem afterLastComma_append {a b : List Char} (hb : ',' ∉ b) :
    afterLastComma (a ++ ',' :: b) = b := by
  unfold afterLastComma
  rw [List.reverse_append, List.reverse_cons, List.append_assoc]
  rw [takeWhile_append_all (([','] : List Char) ++ a.reverse)
    (fun x hx => by
      have hxb : x ∈ b := List.mem_reverse.mp hx
      have hxc : x ≠ ',' := fun h => hb (h ▸ hxb)
      simp [hxc])]
  simp [List.takeWhile_cons]

theorem map_eq_self_of_mem {f : Char → Char} {l : List Char} (h : ∀ x ∈ l, f x = x) :
    l.map f = l := by
  induction l with
  | nil => rfl
  | cons c cs ih =>
    simp [h c (List.mem_cons_self _ _), ih (fun x hx => h x (List.mem_cons_of_mem _ hx))]

theorem filter_eq_self_of_mem {p : Char → Bool} {l : List Char} (h : ∀ x ∈ l, p x) :
    l.filter p = l :=
  List.filter_eq_self.mpr h

theorem splitDot_no_dot {a : List Char} (h : '.' ∉ a) : splitDot a = (a, none) := by
  induction a with
  | nil => rfl
  | cons c cs ih =>
    have h1 : '.' ∉ cs := fun hh => h (List.mem_cons_of_mem _ hh)
    have h2 : ¬c = '.' := fun hh => h (hh ▸ List.mem_cons_self _ _)
    simp [splitDot, h2, ih h1]

theorem splitDot_append {a : List Char} (b : List Char) (h : '.' ∉ a) :
    splitDot (a ++ '.' :: b) = (a, some b) := by
  induction a with
  | nil => simp [splitDot]
  | cons c a' ih =>
    have h1 : '.' ∉ a' := fun hh => h (List.mem_cons_of_mem _ hh)
    have h2 : ¬c = '.' := fun hh => h (hh ▸ List.mem_cons_self _ _)
    simp [splitDot, h2, ih h1]

theorem pyFloat?_digits {a : List Char} (h : ∀ x ∈ a, x.isDigit) (hne : a ≠ []) :
    pyFloat? a = some (digitsVal a : Rat) := by
  have hd : '.' ∉ a := fun hm => absurd (h _ hm) (by decide)
  simp only [pyFloat?, splitDot_no_dot hd]
  rw [if_pos ⟨hne, List.all_eq_true.mpr h⟩]

theorem pyFloat?_digits_dot {a b : List Char} (ha : ∀ x ∈ a, x.isDigit)
    (hb : ∀ x ∈ b, x.isDigit) (hne : a ++ b ≠ []) :
    pyFloat? (a ++ '.' :: b)
      = some ((digitsVal a : Rat) + (digitsVal b : Rat) / (10 : Rat) ^ b.length) := by
  have hd : '.' ∉ a := fun hm => absurd (ha _ hm) (by decide)
  simp only [pyFloat?, splitDot_append b hd]
  rw [if_pos ⟨hne, List.all_eq_true.mpr ha, List.all_eq_true.mpr hb⟩]

theorem normalize_eu_mixed {a c : List Char}
    (ha : ∀ x ∈ a, x.isDigit ∨ x = '.') (hdot : '.' ∈ a) (hc : ∀ x ∈ c, x.isDigit)
    (hne : a.filter (fun x => x ≠ '.') ++ c ≠ []) :
    normalize_currency_string (a ++ ',' :: c)
      = (digitsVal (a.filter (fun x => x ≠ '.')) : Rat)
        + (digitsVal c : Rat) / (10 : Rat) ^ c.length := by
  have hcnc : ',' ∉ c := fun hm => absurd (hc _ hm) (by decide)
  have hcnd : '.' ∉ c := fun hm => absurd (hc _ hm) (by decide)
  have hdnotin : '.' ∉ ',' :: c := by
    intro hm
    rcases List.mem_cons.mp hm with h | h
    · exact absurd h (by decide)
    · exact hcnd h
  have hmem : ',' ∈ a ++ ',' :: c := List.mem_append_right _ (List.mem_cons_self _ _)
  have hdmem : '.' ∈ a ++ ',' :: c := List.mem_append_left _ hdot
  have hgt : rfind ',' (a ++ ',' :: c) > rfind '.' (a ++ ',' :: c) := by
    rw [rfind_append_last a hcnc, rfind_append_of_not_mem_right a hdnotin]
    exact rfind_lt_length '.' a
  have haf : ∀ x ∈ a.filter (fun x => x ≠ '.'), x.isDigit := by
    intro x hx
    obtain ⟨hxa, hxd⟩ := List.mem_filter.mp hx
    rcases ha x hxa with h | h
    · exact h
    · exact absurd h (of_decide_eq_true hxd)
  have hfilter : (a ++ ',' :: c).filter (fun x => x ≠ '.')
      = a.filter (fun x => x ≠ '.') ++ ',' :: c := by
    rw [List.filter_append]
    congr 1
    rw [List.filter_cons, if_pos (by decide)]
    congr 1
    exact filter_eq_self_of_mem (fun x hx => decide_eq_true (isDigit_ne_dot (hc x hx)))
  have hmap : (a.filter (fun x => x ≠ '.') ++ ',' :: c).map
        (fun x => if x = ',' then '.' else x)
      = a.filter (fun x => x ≠ '.') ++ '.' :: c := by
    rw [List.map_append]
    congr 1
    · exact map_eq_self_of_mem (fun x hx => if_neg (isDigit_ne_comma (haf x hx)))
    · rw [List.map_cons, if_pos rfl]
      congr 1
      exact map_eq_self_of_mem (fun x hx => if_neg (isDigit_ne_comma (hc x hx)))
  simp only [normalize_currency_string]
  rw [if_pos ⟨hmem, hdmem⟩, if_pos hgt, hfilter, hmap, pyFloat?_digits_dot haf hc hne]
  rfl

theorem normalize_us_mixed {a c : List Char}
    (ha : ∀ x ∈ a, x.isDigit ∨ x = ',') (hcomma : ',' ∈ a) (hc : ∀ x ∈ c, x.isDigit)
    (hne : a.filter (fun x => x ≠ ',') ++ c ≠ []) :
    normalize_currency_string (a ++ '.' :: c)
      = (digitsVal (a.filter (fun x => x ≠ ',')) : Rat)
        + (digitsVal c : Rat) / (10 : Rat) ^ c.length := by
  have hcnc : ',' ∉ c := fun hm => absurd (hc _ hm) (by decide)
  have hcnd : '.' ∉ c := fun hm => absurd (hc _ hm) (by decide)
  have hcnotin : ',' ∉ '.' :: c := by
    intro hm
    rcases List.mem_cons.mp hm with h | h
    · exact absurd h (by decide)
    · exact hcnc h
  have hmem : ',' ∈ a ++ '.' :: c := List.mem_append_left _ hcomma
  have hdmem : '.' ∈ a ++ '.' :: c := List.mem_append_right _ (List.mem_cons_self _ _)
  have hnotgt : ¬rfind ',' (a ++ '.' :: c) > rfind '.' (a ++ '.' :: c) := by
    rw [rfind_append_last a hcnd, rfind_append_of_not_mem_right a hcnotin]
    exact not_lt.mpr (le_of_lt (rfind_lt_length ',' a))
  have haf : ∀ x ∈ a.filter (fun x => x ≠ ','), x.isDigit := by
    intro x hx
    obtain ⟨hxa, hxd⟩ := List.mem_filter.mp hx
    rcases ha x hxa with h | h
    · exact h
    · exact absurd h (of_decide_eq_true hxd)
  have hfilter : (a ++ '.' :: c).filter (fun x => x ≠ ',')
      = a.filter (fun x => x ≠ ',') ++ '.' :: c := by
    rw [List.filter_append]
    congr 1
    rw [List.filter_cons, if_pos (by decide)]
    congr 1
    exact filter_eq_self_of_mem (fun x hx => decide_eq_true (isDigit_ne_comma (hc x hx)))
  simp only [normalize_currency_string]
  rw [if_pos ⟨hmem, hdmem⟩, if_neg hnotgt, hfilter, pyFloat?_digits_dot haf hc hne]
  rfl

theorem normalize_comma_decimal {a b : List Char}
    (ha : ∀ x ∈ a, x.isDigit) (hb : ∀ x ∈ b, x.isDigit) (hlen : b.length = 2) :
    normalize_currency_string (a ++ ',' :: b)
      = (digitsVal a : Rat) + (digitsVal b : Rat) / 100 := by
  have hbne : b ≠ [] := by
    intro h
    rw [h] at hlen
    simp at hlen
  have hnodot : '.' ∉ a ++ ',' :: b := by
    intro hm
    rcases List.mem_append.mp hm with h | h
    · exact absurd (ha _ h) (by decide)
    · rcases List.mem_cons.mp h with h' | h'
      · exact absurd h' (by decide)
      · exact absurd (hb _ h') (by decide)
  have hmem : ',' ∈ a ++ ',' :: b := List.mem_append_right _ (List.mem_cons_self _ _)
  have hlen' : (afterLastComma (a ++ ',' :: b)).length = 2 := by
    rw [afterLastComma_append (fun hm => absurd (hb _ hm) (by decide))]
    exact hlen
  have hmap : (a ++ ',' :: b).map (fun x => if x = ',' then '.' else x)
      = a ++ '.' :: b := by
    rw [List.map_append]
    congr 1
    · exact map_eq_self_of_mem (fun x hx => if_neg (isDigit_ne_comma (ha x hx)))
    · rw [List.map_cons, if_pos rfl]
      congr 1
      exact map_eq_self_of_mem (fun x hx => if_neg (isDigit_ne_comma (hb x hx)))
  have hne : a ++ b ≠ [] := by
    intro h
    exact hbne (List.append_eq_nil.mp h).2
  simp only [normalize_currency_string]
  rw [if_neg (fun hand => hnodot hand.2), if_pos hmem, if_pos hlen', hmap,
    pyFloat?_digits_dot ha hb hne]
  rw [hlen]
  norm_num

theorem normalize_comma_grouping {a b : List Char}
    (ha : ∀ x ∈ a, x.isDigit) (hb : ∀ x ∈ b, x.isDigit) (hlen : b.length ≠ 2)
    (hne : a ++ b ≠ []) :
    normalize_currency_string (a ++ ',' :: b) = (digitsVal (a ++ b) : Rat) := by
  have hnodot : '.' ∉ a ++ ',' :: b := by
    intro hm
    rcases List.mem_append.mp hm with h | h
    · exact absurd (ha _ h) (by decide)
    · rcases List.mem_cons.mp h with h' | h'
      · exact absurd h' (by decide)
      · exact absurd (hb _ h') (by decide)
  have hmem : ',' ∈ a ++ ',' :: b := List.mem_append_right _ (List.mem_cons_self _ _)
  have hlen' : ¬(afterLastComma (a ++ ',' :: b)).length = 2 := by
    rw [afterLastComma_append (fun hm => absurd (hb _ hm) (by decide))]
    exact hlen
  have hfilter : (a ++ ',' :: b).filter (fun x => x ≠ ',') = a ++ b := by
    rw [List.filter_append]
    congr 1
    · exact filter_eq_self_of_mem (fun x hx => decide_eq_true (isDigit_ne_comma (ha x hx)))
    · rw [List.filter_cons, if_neg (by simp)]
      exact filter_eq_self_of_mem (fun x hx => decide_eq_true (isDigit_ne_comma (hb x hx)))
  have hdigits : ∀ x ∈ a ++ b, x.isDigit := by
    intro x hx
    rcases List.mem_append.mp hx with h | h
    · exact ha _ h
    · exact hb _ h
  simp only [normalize_currency_string]
  rw [if_neg (fun hand => hnodot hand.2), if_pos hmem, if_neg hlen', hfilter,
    pyFloat?_digits hdigits hne]
  rfl

/-- Claim C5 — locale-aware normalization: with both separators present the
right-most one is the decimal separator and the other is stripped as
grouping; with only commas, the last comma is read as the decimal point
exactly when two digits follow it and is stripped as grouping otherwise; in
particular `"1.234,56"` and `"1,234.56"` both normalize to `1234.56`,
`",50"` to `0.50` and `"12,000"` to `12000`. -/

theorem c5_normalize_locale_rules :
    (∀ a c : List Char, (∀ x ∈ a, x.isDigit ∨ x = '.') → '.' ∈ a →
      (∀ x ∈ c, x.isDigit) → a.filter (fun x => x ≠ '.') ++ c ≠ [] →
      normalize_currency_string (a ++ ',' :: c)
        = (digitsVal (a.filter (fun x => x ≠ '.')) : Rat)
          + (digitsVal c : Rat) / (10 : Rat) ^ c.length) ∧
    (∀ a c : List Char, (∀ x ∈ a, x.isDigit ∨ x = ',') → ',' ∈ a →
      (∀ x ∈ c, x.isDigit) → a.filter (fun x => x ≠ ',') ++ c ≠ [] →
      normalize_currency_string (a ++ '.' :: c)
        = (digitsVal (a.filter (fun x => x ≠ ',')) : Rat)
          + (digitsVal c : Rat) / (10 : Rat) ^ c.length) ∧
    (∀ a b : List Char, (∀ x ∈ a, x.isDigit) → (∀ x ∈ b, x.isDigit) → b.length = 2 →
      normalize_currency_string (a ++ ',' :: b)
        = (digitsVal a : Rat) + (digitsVal b : Rat) / 100) ∧
    (∀ a b : List Char, (∀ x ∈ a, x.isDigit) → (∀ x ∈ b, x.isDigit) → b.length ≠ 2 →
      a ++ b ≠ [] →
      normalize_currency_string (a ++ ',' :: b) = (digitsVal (a ++ b) : Rat)) ∧
    normalize_currency_string "1.234,56".data = 123456 / 100 ∧
    normalize_currency_string "1,234.56".data = 123456 / 100 ∧
    normalize_currency_string ",50".data = 50 / 100 ∧
    normalize_currency_string "12,000".data = 12000 := by
  refine ⟨fun a c h1 h2 h3 h4 => normalize_eu_mixed h1 h2 h3 h4,
    fun a c h1 h2 h3 h4 => normalize_us_mixed h1 h2 h3 h4,
    fun a b h1 h2 h3 => normalize_comma_decimal h1 h2 h3,
    fun a b h1 h2 h3 h4 => normalize_comma_grouping h1 h2 h3 h4, ?_, ?_, ?_, ?_⟩
  · have hl : "1.234,56".data = ['1', '.', '2', '3', '4'] ++ ',' :: ['5', '6'] := rfl
    have key := normalize_eu_mixed (a := ['1', '.', '2', '3', '4']) (c := ['5', '6'])
      (by decide) (by decide) (by decide) (by decide)
    have d1 : digitsVal (['1', '.', '2', '3', '4'].filter (fun x => x ≠ '.')) = 1234 := by
      decide
    have d2 : digitsVal ['5', '6'] = 56 := by decide
    rw [hl, key, d1, d2]
    norm_num
  · have hl : "1,234.56".data = ['1', ',', '2', '3', '4'] ++ '.' :: ['5', '6'] := rfl
    have key := normalize_us_mixed (a := ['1', ',', '2', '3', '4']) (c := ['5', '6'])
      (by decide) (by decide) (by decide) (by decide)
    have d1 : digitsVal (['1', ',', '2', '3', '4'].filter (fun x => x ≠ ',')) = 1234 := by
      decide
    have d2 : digitsVal ['5', '6'] = 56 := by decide
    rw [hl, key, d1, d2]
    norm_num
  · have hl : ",50".data = ([] : List Char) ++ ',' :: ['5', '0'] := rfl
    have key := normalize_comma_decimal (a := []) (b := ['5', '0'])
      (by decide) (by decide) (by decide)
    have d1 : digitsVal ([] : List Char) = 0 := by decide
    have d2 : digitsVal ['5', '0'] = 50 := by decide
    rw [hl, key, d1, d2]
    norm_num
  · have hl : "12,000".data = ['1', '2'] ++ ',' :: ['0', '0', '0'] := rfl
    have key := normalize_comma_grouping (a := ['1', '2']) (b := ['0', '0', '0'])
      (by decide) (by decide) (by decide) (by decide)
    have d1 : digitsVal (['1', '2'] ++ ['0', '0', '0']) = 12000 := by decide
    rw [hl, key, d1]
    norm_num

/-- Witness for C5: the comma-decimal rule applied to `"7,25"`. -/

theorem c5_normalize_locale_rules_witness :
    normalize_currency_string "7,25".data = 725 / 100 := by
  have hl : "7,25".data = ['7'] ++ ',' :: ['2', '5'] := rfl
  have key := c5_normalize_locale_rules.2.2.1 ['7'] ['2', '5']
    (by decide) (by decide) (by decide)
  have d1 : digitsVal ['7'] = 7 := by decide
  have d2 : digitsVal ['2', '5'] = 25 := by decide
  rw [hl, key, d1, d2]
  norm_num
